import Mathlib

/-!
Shallow embedding of the bc-vod-urls pipeline (src/main.go).

The program converts a live-stream playback reference into VOD URLs via four
sequential stages: credential exchange, session lookup (`getSessions`),
per-session VOD-token minting (`generatePlaybackToken`) and token-to-URL
resolution (`generatePlaybackURL`), all over a shared HTTP helper
(`doRequest`).

Modelling choices:
- The network is an oracle `net : HttpRequest → NetResult` supplied as a
  parameter; `doRequest` classifies its answer exactly as the Go helper does
  (transport error → wrapped error; non-200 → error carrying status and raw
  body; 200 → raw body).
- JSON decoding of response bodies (`json.Unmarshal`, library code external
  to the repository) is an oracle `String → Option _` per response shape.
- Each stage returns, next to its `Except` result, the ordered list of HTTP
  requests it issued (its network trace), so that claims about "no network
  call is attempted" are statable.
- Go `int` epoch seconds become `Int`; `time.Now()` is a parameter `nowNs`
  in integer nanoseconds since the epoch.  In UTC (no DST, no leap seconds)
  `now.UTC().AddDate(0, 0, -vodWindowDuration)` is exactly `now` minus
  14·86400 seconds, and `time.Unix(e, 0).Before(t)` is the strict comparison
  of instants at nanosecond precision.
- Errors are an inductive `Err` carrying the exact Go error message text,
  with one constructor per error kind of the design (local validation,
  upstream rejection, transport failure, decode failure, business-rule
  violation).
-/

deriving instance DecidableEq for Except

namespace VodUrls

/-- An HTTP request as assembled by a pipeline stage before
`doRequest`: method, url, payload body (empty string for a nil body)
and headers. -/
structure HttpRequest where
  method : String
  url : String
  payload : String
  headers : List (String × String)
  deriving DecidableEq, Repr

/-- What the network oracle answers for one request: either a
transport-level failure (connection/timeout/DNS, surfaced by
`app.client.Do`) or a response with a status code and a fully read body. -/
inductive NetResult where
  | transportError (msg : String)
  | response (status : Nat) (body : String)
  deriving DecidableEq, Repr

/-- Error kinds of the pipeline, each carrying the information the Go error
value carries.  `upstreamRejection` keeps the original status code and the
raw response body text unmodified. -/
inductive Err where
  | localValidation (msg : String)
  | upstreamRejection (status : Nat) (body : String)
  | transportFailure (msg : String)
  | decodeFailure (msg : String)
  | businessRuleViolation (msg : String)
  deriving DecidableEq, Repr

/-- Embedding of `(app *application) doRequest`: execute the request against
the network oracle; a transport failure is wrapped, a non-200 status becomes
an upstream-rejection error carrying the status code and the raw body, and a
200 response returns the raw body bytes for the caller to decode. -/
def doRequest (net : HttpRequest → NetResult) (req : HttpRequest) :
    Except Err String :=
  match net req with
  | .transportError msg =>
      .error (.transportFailure ("error getting response: " ++ msg))
  | .response status body =>
      if status = 200 then .ok body
      else .error (.upstreamRejection status body)

/-- Embedding of the `Session` struct: one recorded live broadcast with
epoch-second start and end times (`endTime = 0` means still live). -/
structure Session where
  id : String
  resourceID : String
  accountID : String
  startTime : Int
  endTime : Int
  deriving DecidableEq, Repr

/-- Embedding of the `Sessions` struct: the ordered session list returned by
the platform (`Events` field). -/
structure Sessions where
  events : List Session
  deriving DecidableEq, Repr

/-- Embedding of the `PlaybackToken` struct: one minted VOD token. -/
structure PlaybackToken where
  token : String
  deriving DecidableEq, Repr

/-- Embedding of the `PlaybackURL` struct: one resolved VOD URL. -/
structure PlaybackURL where
  url : String
  deriving DecidableEq, Repr

/-- The `manifestFormatHLS` constant from the source. -/
def manifestFormatHLS : String := "hls"

/-- The `vodWindowDuration` constant from the source: the 14-day VOD window. -/
def vodWindowDuration : Int := 14

/-- Nanoseconds per second, for Go `time.Time` instant comparisons. -/
def nsPerSecond : Int := 1000000000

/-- Seconds per UTC day (Go `time` has no leap seconds, and UTC has no DST,
so `AddDate(0, 0, -14)` shifts the instant by exactly 14·86400 seconds). -/
def secondsPerDay : Int := 86400

/-- The per-session window test of the minting loop:
`time.Unix(int64(session.EndTime), 0).Before(time.Now().UTC().AddDate(0, 0, -vodWindowDuration))`,
i.e. the session's end instant is strictly before `now` minus 14 days,
compared at nanosecond precision. -/
def sessionSkipped (nowNs : Int) (s : Session) : Bool :=
  decide (s.endTime * nsPerSecond <
    nowNs - vodWindowDuration * secondsPerDay * nsPerSecond)

/-- The JSON body produced by `json.NewEncoder(&buf).Encode(data)` for the
anonymous struct `{start_time, end_time, manifest_format}`: fields in struct
order, times rendered by `strconv.Itoa`, and a trailing newline appended by
the encoder. -/
def mintBody (s : Session) : String :=
  "\x7b\"start_time\":\"" ++ toString s.startTime ++ "\",\"end_time\":\""
    ++ toString s.endTime ++ "\",\"manifest_format\":\"" ++ manifestFormatHLS
    ++ "\"\x7d\n"

/-- The minting endpoint, derived once from the account id and resource id
of the first session in the list. -/
def tokenEndpoint (s : Session) : String :=
  "https://api.live.brightcove.com/v2/accounts/" ++ s.accountID
    ++ "/playback/" ++ s.resourceID ++ "/token"

/-- Headers of a minting request. -/
def mintHeaders (token : String) : List (String × String) :=
  [("Content-Type", "application/json"),
   ("Authorization", "Bearer " ++ token)]

/-- The POST request issued to mint a VOD token for one session. -/
def mintReq (u token : String) (s : Session) : HttpRequest :=
  ⟨"POST", u, mintBody s, mintHeaders token⟩

/-- Error message text shared by every `json.Unmarshal` failure site. -/
def decodeErrMsg : String := "error decoding body"

/-- What one iteration of the minting loop yields for a non-skipped session:
`some` token when the request and the decode both succeed, `none` when
either fails. -/
def mintOf (net : HttpRequest → NetResult)
    (decodeTok : String → Option PlaybackToken) (u token : String)
    (s : Session) : Option PlaybackToken :=
  match doRequest net (mintReq u token s) with
  | .error _ => none
  | .ok body => decodeTok body

/-- The per-session minting loop of `generatePlaybackToken`: in original
order, skip sessions outside the 14-day window, otherwise POST the minting
request and decode the response; the first failure aborts, discarding the
tokens accumulated so far (Go returns `nil, err`).  The second component is
the ordered trace of requests actually issued. -/
def mintLoop (net : HttpRequest → NetResult)
    (decodeTok : String → Option PlaybackToken) (u token : String)
    (nowNs : Int) :
    List Session → Except Err (List PlaybackToken) × List HttpRequest
  | [] => (.ok [], [])
  | s :: rest =>
    if sessionSkipped nowNs s then
      mintLoop net decodeTok u token nowNs rest
    else
      match doRequest net (mintReq u token s) with
      | .error e => (.error e, [mintReq u token s])
      | .ok body =>
        match decodeTok body with
        | none => (.error (.decodeFailure decodeErrMsg), [mintReq u token s])
        | some pt =>
          let r := mintLoop net decodeTok u token nowNs rest
          (match r.1 with
           | .error e => .error e
           | .ok toks => .ok (pt :: toks), mintReq u token s :: r.2)

/-- Go error message for an empty session list. -/
def noEventsMsg : String := "no events in session, quitting"

/-- Go error message for the live-session gate, naming the resource. -/
def liveSessionMsg (resourceID : String) : String :=
  "resource " ++ resourceID
    ++ " has an ongoing live session, cannot generate VOD URLs until the stream ends"

/-- Go error message when every session fell outside the window. -/
def noValidSessionsMsg : String := "no valid sessions to continue"

/-- Embedding of `(app *application) generatePlaybackToken`: reject an empty
session list; scan for any live session (`EndTime == 0`) and abort naming
the first one found; derive the minting endpoint from the first session;
run the minting loop; reject an empty token list. -/
def generatePlaybackToken (net : HttpRequest → NetResult)
    (decodeTok : String → Option PlaybackToken) (nowNs : Int)
    (sessions : Sessions) (token : String) :
    Except Err (List PlaybackToken) × List HttpRequest :=
  match sessions.events with
  | [] => (.error (.localValidation noEventsMsg), [])
  | s0 :: rest =>
    match (s0 :: rest).find? (fun s => s.endTime == 0) with
    | some live =>
        (.error (.businessRuleViolation (liveSessionMsg live.resourceID)), [])
    | none =>
      let r := mintLoop net decodeTok (tokenEndpoint s0) token nowNs
        (s0 :: rest)
      match r.1 with
      | .error e => (.error e, r.2)
      | .ok toks =>
        if toks.isEmpty then
          (.error (.localValidation noValidSessionsMsg), r.2)
        else (.ok toks, r.2)

/-- The GET request issued to resolve one token into a playback URL
(unauthenticated; the token travels as the `pt` query parameter). -/
def resolveReq (resourceID : String) (t : PlaybackToken) : HttpRequest :=
  ⟨"GET",
   "https://api.live.brightcove.com/v2/playback/" ++ resourceID ++ "?pt="
     ++ t.token,
   "", [("Content-Type", "application/json")]⟩

/-- What one iteration of the resolution loop yields for a token: `some`
URL when the request and the decode both succeed, `none` otherwise. -/
def resolveOf (net : HttpRequest → NetResult)
    (decodeURL : String → Option PlaybackURL) (resourceID : String)
    (t : PlaybackToken) : Option PlaybackURL :=
  match doRequest net (resolveReq resourceID t) with
  | .error _ => none
  | .ok body => decodeURL body

/-- Embedding of `(app *application) generatePlaybackURL`: for each token in
order, GET the resolution endpoint and decode a `PlaybackURL`; the first
failure aborts, discarding URLs accumulated so far.  An empty token list
yields an empty URL list with no error and no request issued. -/
def generatePlaybackURL (net : HttpRequest → NetResult)
    (decodeURL : String → Option PlaybackURL) :
    List PlaybackToken → String →
      Except Err (List PlaybackURL) × List HttpRequest
  | [], _ => (.ok [], [])
  | t :: rest, resourceID =>
    match doRequest net (resolveReq resourceID t) with
    | .error e => (.error e, [resolveReq resourceID t])
    | .ok body =>
      match decodeURL body with
      | none => (.error (.decodeFailure decodeErrMsg), [resolveReq resourceID t])
      | some pu =>
        let r := generatePlaybackURL net decodeURL rest resourceID
        (match r.1 with
         | .error e => .error e
         | .ok urls => .ok (pu :: urls), resolveReq resourceID t :: r.2)

/-- Embedding of `strings.Split(s, "/")` from the Go standard library for
the one-character separator `/`: every maximal run between slashes becomes a
segment, with empty segments around leading, trailing and adjacent slashes,
and the empty string splitting to `[""]`. -/
def splitSlashChars : List Char → List (List Char)
  | [] => [[]]
  | c :: cs =>
    if c = '/' then [] :: splitSlashChars cs
    else
      match splitSlashChars cs with
      | [] => [[c]]
      | seg :: rest => (c :: seg) :: rest

/-- The split `strings.Split(s, "/")` on a `String`. -/
def splitSlash (s : String) : List String :=
  (splitSlashChars s.toList).map String.mk

/-- Go error message for a playback reference whose path has fewer than six
slash-separated segments. -/
def malformedMsg : String := "malformed playback URL provided"

/-- The authenticated GET request fetching all sessions of a resource. -/
def sessionsReq (token accountID resourceID : String) : HttpRequest :=
  ⟨"GET",
   "https://api.live.brightcove.com/v2/accounts/" ++ accountID
     ++ "/sessions/resource/" ++ resourceID,
   "",
   [("Content-Type", "application/json"),
    ("Authorization", "Bearer " ++ token)]⟩

/-- Embedding of `(app *application) getSessions`: parse the playback
reference (`url.Parse`, library code, modelled as the oracle `parsePath`
yielding the URL's path), split the path on `/`, require at least six
segments, take segment 1 as the resource id and segment 3 as the account id,
then fetch and decode the session list.  The second component is the trace
of requests issued. -/
def getSessions (net : HttpRequest → NetResult)
    (decodeSessions : String → Option Sessions)
    (parsePath : String → Option String) (token playbackURL : String) :
    Except Err (Sessions × String) × List HttpRequest :=
  match parsePath playbackURL with
  | none => (.error (.localValidation "error parsing playbackURL"), [])
  | some path =>
    let pathParts := splitSlash path
    if pathParts.length < 6 then
      (.error (.localValidation malformedMsg), [])
    else
      let resourceID := pathParts.getD 1 ""
      match doRequest net (sessionsReq token (pathParts.getD 3 "") resourceID) with
      | .error e => (.error e, [sessionsReq token (pathParts.getD 3 "") resourceID])
      | .ok body =>
        match decodeSessions body with
        | none =>
            (.error (.decodeFailure decodeErrMsg),
             [sessionsReq token (pathParts.getD 3 "") resourceID])
        | some sessions =>
            (.ok (sessions, resourceID),
             [sessionsReq token (pathParts.getD 3 "") resourceID])

/-- Map a fallible function over a list, succeeding only when every element
succeeds, preserving order; used to state the 1:1 order-preserving
correspondence between eligible sessions, minted tokens and resolved URLs. -/
def optMap {α β : Type} (f : α → Option β) : List α → Option (List β)
  | [] => some []
  | a :: l =>
    match f a, optMap f l with
    | some b, some bs => some (b :: bs)
    | _, _ => none

/-- When `optMap` succeeds, the output list has the input's length. -/
theorem optMap_length {α β : Type} (f : α → Option β) :
    ∀ l ys, optMap f l = some ys → ys.length = l.length := by
  intro l
  induction l with
  | nil =>
    intro ys h
    simp only [optMap, Option.some.injEq] at h
    simp [← h]
  | cons a l ih =>
    intro ys h
    simp only [optMap] at h
    cases hfa : f a with
    | none => rw [hfa] at h; simp at h
    | some b =>
      rw [hfa] at h
      cases hrec : optMap f l with
      | none => rw [hrec] at h; simp at h
      | some bs =>
        rw [hrec] at h
        simp only [Option.some.injEq] at h
        subst h
        simp [ih bs hrec]

/-- Success characterization of the minting loop: when it returns `.ok`, the
token list is exactly `optMap` of `mintOf` over the non-skipped sessions in
order, and the request trace is exactly one minting request per non-skipped
session, in order. -/
theorem mintLoop_ok (net : HttpRequest → NetResult)
    (decodeTok : String → Option PlaybackToken) (u token : String)
    (nowNs : Int) :
    ∀ l toks tr, mintLoop net decodeTok u token nowNs l = (.ok toks, tr) →
      optMap (mintOf net decodeTok u token)
          (l.filter (fun s => !sessionSkipped nowNs s)) = some toks ∧
        tr = (l.filter (fun s => !sessionSkipped nowNs s)).map
          (mintReq u token) := by
  intro l
  induction l with
  | nil =>
    intro toks tr h
    simp only [mintLoop, Prod.mk.injEq] at h
    obtain ⟨h1, h2⟩ := h
    cases h1
    simp [optMap, h2]
  | cons s rest ih =>
    intro toks tr h
    cases hs : sessionSkipped nowNs s with
    | true =>
      rw [mintLoop, if_pos hs] at h
      have := ih toks tr h
      simpa [List.filter_cons, hs] using this
    | false =>
      rw [mintLoop, if_neg (by simp [hs])] at h
      cases hdo : doRequest net (mintReq u token s) with
      | error e => simp [hdo] at h
      | ok body =>
        cases hdec : decodeTok body with
        | none => simp [hdo, hdec] at h
        | some pt =>
          simp only [hdo, hdec] at h
          rcases hr : mintLoop net decodeTok u token nowNs rest with ⟨r1, r2⟩
          rw [hr] at h
          simp only at h
          cases r1 with
          | error e => simp at h
          | ok toks' =>
            simp only [Prod.mk.injEq, Except.ok.injEq] at h
            obtain ⟨h1, h2⟩ := h
            obtain ⟨ih1, ih2⟩ := ih toks' r2 hr
            subst h1 h2
            constructor
            · simp [List.filter_cons, hs, optMap, mintOf, hdo, hdec, ih1]
            · simp [List.filter_cons, hs, ih2]

/-- When every session is outside the window, the minting loop succeeds with
an empty token list and issues no request. -/
theorem mintLoop_all_skipped (net : HttpRequest → NetResult)
    (decodeTok : String → Option PlaybackToken) (u token : String)
    (nowNs : Int) :
    ∀ l, (∀ s ∈ l, sessionSkipped nowNs s = true) →
      mintLoop net decodeTok u token nowNs l = (.ok [], []) := by
  intro l
  induction l with
  | nil => intro _; rfl
  | cons s rest ih =>
    intro h
    have hs := h s (List.mem_cons_self s rest)
    rw [mintLoop, if_pos hs]
    exact ih (fun x hx => h x (List.mem_cons_of_mem s hx))

/-- Fail-fast of the minting loop: if any non-skipped session's request or
decode fails, the whole loop returns an error (no token list). -/
theorem mintLoop_err_of_bad (net : HttpRequest → NetResult)
    (decodeTok : String → Option PlaybackToken) (u token : String)
    (nowNs : Int) :
    ∀ l s, s ∈ l → sessionSkipped nowNs s = false →
      mintOf net decodeTok u token s = none →
      ∃ e, (mintLoop net decodeTok u token nowNs l).1 = .error e := by
  intro l
  induction l with
  | nil => intro s hs; simp at hs
  | cons a rest ih =>
    intro s hmem hskip hbad
    rcases List.mem_cons.mp hmem with heq | hmem'
    · subst heq
      cases hdo : doRequest net (mintReq u token s) with
      | error e =>
        exact ⟨e, by simp [mintLoop, hskip, hdo]⟩
      | ok body =>
        have hdec : decodeTok body = none := by
          simpa [mintOf, hdo] using hbad
        exact ⟨.decodeFailure decodeErrMsg,
          by simp [mintLoop, hskip, hdo, hdec]⟩
    · cases ha : sessionSkipped nowNs a with
      | true =>
        obtain ⟨e, he⟩ := ih s hmem' hskip hbad
        exact ⟨e, by rw [mintLoop, if_pos ha]; exact he⟩
      | false =>
        cases hdo : doRequest net (mintReq u token a) with
        | error e =>
          exact ⟨e, by simp [mintLoop, ha, hdo]⟩
        | ok body =>
          cases hdec : decodeTok body with
          | none =>
            exact ⟨.decodeFailure decodeErrMsg,
              by simp [mintLoop, ha, hdo, hdec]⟩
          | some pt =>
            obtain ⟨e, he⟩ := ih s hmem' hskip hbad
            exact ⟨e, by simp [mintLoop, ha, hdo, hdec, he]⟩

/-- Success characterization of the URL-resolution stage: when it returns
`.ok`, the URL list is exactly `optMap` of `resolveOf` over the tokens in
order, and the trace is exactly one resolution request per token, in
order. -/
theorem generatePlaybackURL_ok (net : HttpRequest → NetResult)
    (decodeURL : String → Option PlaybackURL) (resourceID : String) :
    ∀ tokens urls tr,
      generatePlaybackURL net decodeURL tokens resourceID = (.ok urls, tr) →
      optMap (resolveOf net decodeURL resourceID) tokens = some urls ∧
        tr = tokens.map (resolveReq resourceID) := by
  intro tokens
  induction tokens with
  | nil =>
    intro urls tr h
    simp only [generatePlaybackURL, Prod.mk.injEq] at h
    obtain ⟨h1, h2⟩ := h
    cases h1
    simp [optMap, h2]
  | cons t rest ih =>
    intro urls tr h
    rw [generatePlaybackURL] at h
    cases hdo : doRequest net (resolveReq resourceID t) with
    | error e => simp [hdo] at h
    | ok body =>
      cases hdec : decodeURL body with
      | none => simp [hdo, hdec] at h
      | some pu =>
        simp only [hdo, hdec] at h
        rcases hr : generatePlaybackURL net decodeURL rest resourceID
          with ⟨r1, r2⟩
        rw [hr] at h
        simp only at h
        cases r1 with
        | error e => simp at h
        | ok urls' =>
          simp only [Prod.mk.injEq, Except.ok.injEq] at h
          obtain ⟨h1, h2⟩ := h
          obtain ⟨ih1, ih2⟩ := ih urls' r2 hr
          subst h1 h2
          constructor
          · simp [optMap, resolveOf, hdo, hdec, ih1]
          · simp [ih2]

/-- Fail-fast of the URL-resolution stage: if any token's request or decode
fails, the whole stage returns an error (no URL list). -/
theorem generatePlaybackURL_err_of_bad (net : HttpRequest → NetResult)
    (decodeURL : String → Option PlaybackURL) (resourceID : String) :
    ∀ tokens t, t ∈ tokens → resolveOf net decodeURL resourceID t = none →
      ∃ e, (generatePlaybackURL net decodeURL tokens resourceID).1 =
        .error e := by
  intro tokens
  induction tokens with
  | nil => intro t ht; simp at ht
  | cons a rest ih =>
    intro t hmem hbad
    rcases List.mem_cons.mp hmem with heq | hmem'
    · subst heq
      cases hdo : doRequest net (resolveReq resourceID t) with
      | error e => exact ⟨e, by simp [generatePlaybackURL, hdo]⟩
      | ok body =>
        have hdec : decodeURL body = none := by
          simpa [resolveOf, hdo] using hbad
        exact ⟨.decodeFailure decodeErrMsg,
          by simp [generatePlaybackURL, hdo, hdec]⟩
    · cases hdo : doRequest net (resolveReq resourceID a) with
      | error e => exact ⟨e, by simp [generatePlaybackURL, hdo]⟩
      | ok body =>
        cases hdec : decodeURL body with
        | none =>
          exact ⟨.decodeFailure decodeErrMsg,
            by simp [generatePlaybackURL, hdo, hdec]⟩
        | some pu =>
          obtain ⟨e, he⟩ := ih t hmem' hbad
          exact ⟨e, by simp [generatePlaybackURL, hdo, hdec, he]⟩

/-- Success characterization of the whole minting stage: `.ok` means the
list was non-empty with no live session, the token list is `optMap` of
`mintOf` over the non-skipped sessions in order and non-empty, and the
trace is one minting request per non-skipped session, in order, all against
the endpoint derived from the first session. -/
theorem generatePlaybackToken_ok (net : HttpRequest → NetResult)
    (decodeTok : String → Option PlaybackToken) (nowNs : Int)
    (evts : List Session) (token : String) (toks : List PlaybackToken)
    (tr : List HttpRequest)
    (h : generatePlaybackToken net decodeTok nowNs ⟨evts⟩ token =
      (.ok toks, tr)) :
    ∃ s0 rest, evts = s0 :: rest ∧
      evts.find? (fun s => s.endTime == 0) = none ∧
      optMap (mintOf net decodeTok (tokenEndpoint s0) token)
        (evts.filter (fun s => !sessionSkipped nowNs s)) = some toks ∧
      tr = (evts.filter (fun s => !sessionSkipped nowNs s)).map
        (mintReq (tokenEndpoint s0) token) ∧
      toks ≠ [] := by
  cases evts with
  | nil => simp [generatePlaybackToken] at h
  | cons s0 rest =>
    refine ⟨s0, rest, rfl, ?_⟩
    simp only [generatePlaybackToken] at h
    cases hfind : (s0 :: rest).find? (fun s => s.endTime == 0) with
    | some live => rw [hfind] at h; simp at h
    | none =>
      rw [hfind] at h
      simp only at h
      rcases hr : mintLoop net decodeTok (tokenEndpoint s0) token nowNs
        (s0 :: rest) with ⟨r1, r2⟩
      rw [hr] at h
      simp only at h
      cases r1 with
      | error e => simp at h
      | ok toks' =>
        cases hemp : toks'.isEmpty with
        | true => simp [hemp] at h
        | false =>
          simp only [hemp, Bool.false_eq_true, if_false, Prod.mk.injEq,
            Except.ok.injEq] at h
          obtain ⟨h1, h2⟩ := h
          subst h1
          subst h2
          obtain ⟨m1, m2⟩ := mintLoop_ok net decodeTok (tokenEndpoint s0)
            token nowNs (s0 :: rest) toks' r2 hr
          refine ⟨rfl, m1, m2, ?_⟩
          intro hnil
          subst hnil
          simp at hemp

/-- C1: for every session list containing at least one session with
`endTime = 0`, `generatePlaybackToken` fails with the live-session
business-rule error naming the resource of the (first) live session found,
regardless of the other sessions, and issues no minting request at all, so
no VOD token is minted for any session in the list. -/
theorem generatePlaybackToken_live_gate (net : HttpRequest → NetResult)
    (decodeTok : String → Option PlaybackToken) (nowNs : Int)
    (evts : List Session) (token : String)
    (h : ∃ s ∈ evts, s.endTime = 0) :
    ∃ live ∈ evts, live.endTime = 0 ∧
      evts.find? (fun s => s.endTime == 0) = some live ∧
      generatePlaybackToken net decodeTok nowNs ⟨evts⟩ token =
        (.error (.businessRuleViolation (liveSessionMsg live.resourceID)),
         []) := by
  obtain ⟨s, hmem, hend⟩ := h
  have hsome : (evts.find? (fun s => s.endTime == 0)).isSome := by
    rw [List.find?_isSome]
    exact ⟨s, hmem, by simp [hend]⟩
  obtain ⟨live, hlive⟩ := Option.isSome_iff_exists.mp hsome
  refine ⟨live, List.mem_of_find?_eq_some hlive, ?_, hlive, ?_⟩
  · have := List.find?_some hlive
    simpa using this
  · cases evts with
    | nil => simp at hmem
    | cons s0 rest =>
      simp only [generatePlaybackToken, hlive]

/-- Witness for C1 at a concrete list whose second session is live. -/
theorem generatePlaybackToken_live_gate_witness :
    (∃ s ∈ [(⟨"s1", "R1", "A1", 1, 5⟩ : Session),
            ⟨"s2", "R2", "A2", 2, 0⟩], s.endTime = 0) ∧
    ∃ live ∈ [(⟨"s1", "R1", "A1", 1, 5⟩ : Session),
              ⟨"s2", "R2", "A2", 2, 0⟩], live.endTime = 0 ∧
      [(⟨"s1", "R1", "A1", 1, 5⟩ : Session),
       ⟨"s2", "R2", "A2", 2, 0⟩].find? (fun s => s.endTime == 0) =
        some live ∧
      generatePlaybackToken (fun _ => .response 200 "b") (fun _ => none) 0
          ⟨[⟨"s1", "R1", "A1", 1, 5⟩, ⟨"s2", "R2", "A2", 2, 0⟩]⟩ "t" =
        (.error (.businessRuleViolation (liveSessionMsg live.resourceID)),
         []) :=
  ⟨by decide,
   generatePlaybackToken_live_gate (fun _ => .response 200 "b")
     (fun _ => none) 0
     [⟨"s1", "R1", "A1", 1, 5⟩, ⟨"s2", "R2", "A2", 2, 0⟩] "t" (by decide)⟩

/-- C3: on every successful run of `generatePlaybackToken`, a session is
skipped (no minting request issued for it, with no error) exactly when its
end instant is strictly before `now` minus 14 days, and each non-skipped
session produces, in original list order, exactly one minting request and
one appended token. -/
theorem generatePlaybackToken_window_filter (net : HttpRequest → NetResult)
    (decodeTok : String → Option PlaybackToken) (nowNs : Int)
    (evts : List Session) (token : String) (toks : List PlaybackToken)
    (tr : List HttpRequest)
    (h : generatePlaybackToken net decodeTok nowNs ⟨evts⟩ token =
      (.ok toks, tr)) :
    ∃ s0 rest, evts = s0 :: rest ∧
      tr = (evts.filter (fun s =>
          !decide (s.endTime * nsPerSecond <
            nowNs - vodWindowDuration * secondsPerDay * nsPerSecond))).map
        (mintReq (tokenEndpoint s0) token) ∧
      optMap (mintOf net decodeTok (tokenEndpoint s0) token)
          (evts.filter (fun s =>
            !decide (s.endTime * nsPerSecond <
              nowNs - vodWindowDuration * secondsPerDay * nsPerSecond))) =
        some toks := by
  obtain ⟨s0, rest, hevts, _, m1, m2, _⟩ :=
    generatePlaybackToken_ok net decodeTok nowNs evts token toks tr h
  exact ⟨s0, rest, hevts, m2, m1⟩

/-- Witness session for C3: ended 20 days before the witness clock. -/
def wS1 : Session := ⟨"s1", "R", "A", 1, 86400⟩

/-- Witness session for C3: ended 1 day before the witness clock. -/
def wS2 : Session := ⟨"s2", "R", "A", 2, 1728000⟩

/-- Witness clock for C3: 21 days after the epoch, in nanoseconds. -/
def wNowNs : Int := 1814400000000000

/-- Witness for C3: with sessions `[wS1 (endTime now−20d), wS2 (endTime
now−1d)]` the stage mints exactly one token, for `wS2`, issuing exactly one
request, and `wS1` is skipped without error. -/
theorem generatePlaybackToken_window_filter_witness :
    generatePlaybackToken (fun _ => .response 200 "b") (fun _ => some ⟨"T"⟩)
        wNowNs ⟨[wS1, wS2]⟩ "t" =
      (.ok [⟨"T"⟩], [mintReq (tokenEndpoint wS1) "t" wS2]) ∧
    (∃ s0 rest, [wS1, wS2] = s0 :: rest ∧
      [mintReq (tokenEndpoint wS1) "t" wS2] =
        ([wS1, wS2].filter (fun s =>
          !decide (s.endTime * nsPerSecond <
            wNowNs - vodWindowDuration * secondsPerDay * nsPerSecond))).map
          (mintReq (tokenEndpoint s0) "t") ∧
      optMap (mintOf (fun _ => .response 200 "b") (fun _ => some ⟨"T"⟩)
          (tokenEndpoint s0) "t")
          ([wS1, wS2].filter (fun s =>
            !decide (s.endTime * nsPerSecond <
              wNowNs - vodWindowDuration * secondsPerDay * nsPerSecond))) =
        some [⟨"T"⟩]) :=
  ⟨by decide,
   generatePlaybackToken_window_filter (fun _ => .response 200 "b")
     (fun _ => some ⟨"T"⟩) wNowNs [wS1, wS2] "t" [⟨"T"⟩]
     [mintReq (tokenEndpoint wS1) "t" wS2] (by decide)⟩

/-- C2: on a successful end-to-end run, the final URL list has exactly one
URL per token, the trace of the resolution stage is one request per token
in token order, the token list corresponds 1:1 in order to the eligible
(non-skipped) sessions, and so session order determines token order
determines URL order. -/
theorem pipeline_order_preserved (net1 net2 : HttpRequest → NetResult)
    (decodeTok : String → Option PlaybackToken)
    (decodeURL : String → Option PlaybackURL) (nowNs : Int)
    (evts : List Session) (token resourceID : String)
    (toks : List PlaybackToken) (urls : List PlaybackURL)
    (tr1 tr2 : List HttpRequest)
    (h1 : generatePlaybackToken net1 decodeTok nowNs ⟨evts⟩ token =
      (.ok toks, tr1))
    (h2 : generatePlaybackURL net2 decodeURL toks resourceID =
      (.ok urls, tr2)) :
    urls.length = toks.length ∧
    optMap (resolveOf net2 decodeURL resourceID) toks = some urls ∧
    tr2 = toks.map (resolveReq resourceID) ∧
    ∃ s0 rest, evts = s0 :: rest ∧
      optMap (mintOf net1 decodeTok (tokenEndpoint s0) token)
        (evts.filter (fun s => !sessionSkipped nowNs s)) = some toks ∧
      toks.length =
        (evts.filter (fun s => !sessionSkipped nowNs s)).length := by
  obtain ⟨u1, u2⟩ := generatePlaybackURL_ok net2 decodeURL resourceID toks
    urls tr2 h2
  obtain ⟨s0, rest, hevts, _, m1, _, _⟩ :=
    generatePlaybackToken_ok net1 decodeTok nowNs evts token toks tr1 h1
  exact ⟨optMap_length _ toks urls u1, u1, u2,
    s0, rest, hevts, m1, optMap_length _ _ toks m1⟩

/-- Witness for C2: a one-session end-to-end run where one token is minted
and one URL resolved, in matching order. -/
theorem pipeline_order_preserved_witness :
    ([(⟨"U"⟩ : PlaybackURL)]).length =
      ([(⟨"PT"⟩ : PlaybackToken)]).length ∧
    optMap (resolveOf (fun _ => .response 200 "ub") (fun _ => some ⟨"U"⟩)
      "ResA") [⟨"PT"⟩] = some [⟨"U"⟩] ∧
    [resolveReq "ResA" ⟨"PT"⟩] =
      ([(⟨"PT"⟩ : PlaybackToken)]).map (resolveReq "ResA") ∧
    ∃ s0 rest,
      ([(⟨"s", "ResA", "AcctB", 10, 100⟩ : Session)]) = s0 :: rest ∧
      optMap (mintOf (fun _ => .response 200 "tb") (fun _ => some ⟨"PT"⟩)
          (tokenEndpoint s0) "AT")
        (([(⟨"s", "ResA", "AcctB", 10, 100⟩ : Session)]).filter
          (fun s => !sessionSkipped 0 s)) = some [⟨"PT"⟩] ∧
      ([(⟨"PT"⟩ : PlaybackToken)]).length =
        (([(⟨"s", "ResA", "AcctB", 10, 100⟩ : Session)]).filter
          (fun s => !sessionSkipped 0 s)).length :=
  pipeline_order_preserved (fun _ => .response 200 "tb")
    (fun _ => .response 200 "ub") (fun _ => some ⟨"PT"⟩)
    (fun _ => some ⟨"U"⟩) 0 [⟨"s", "ResA", "AcctB", 10, 100⟩] "AT" "ResA"
    [⟨"PT"⟩] [⟨"U"⟩]
    [mintReq (tokenEndpoint ⟨"s", "ResA", "AcctB", 10, 100⟩) "AT"
      ⟨"s", "ResA", "AcctB", 10, 100⟩]
    [resolveReq "ResA" ⟨"PT"⟩] (by decide) (by decide)

/-- C4: for every non-empty session list with no live session in which
every session's end instant is strictly older than `now` minus 14 days,
`generatePlaybackToken` fails with the local-validation error
"no valid sessions to continue" and issues zero minting requests. -/
theorem generatePlaybackToken_all_expired (net : HttpRequest → NetResult)
    (decodeTok : String → Option PlaybackToken) (nowNs : Int)
    (evts : List Session) (token : String) (hne : evts ≠ [])
    (hlive : ∀ s ∈ evts, s.endTime ≠ 0)
    (hold : ∀ s ∈ evts,
      s.endTime * nsPerSecond <
        nowNs - vodWindowDuration * secondsPerDay * nsPerSecond) :
    generatePlaybackToken net decodeTok nowNs ⟨evts⟩ token =
      (.error (.localValidation noValidSessionsMsg), []) := by
  cases evts with
  | nil => exact absurd rfl hne
  | cons s0 rest =>
    have hfind : (s0 :: rest).find? (fun s => s.endTime == 0) = none := by
      rw [List.find?_eq_none]
      intro x hx
      simp [hlive x hx]
    have hloop := mintLoop_all_skipped net decodeTok (tokenEndpoint s0) token
      nowNs (s0 :: rest)
      (fun s hs => by simp [sessionSkipped, hold s hs])
    simp [generatePlaybackToken, hfind, hloop]

/-- Witness for C4: one session that ended two seconds into the epoch,
viewed fifteen days later. -/
theorem generatePlaybackToken_all_expired_witness :
    generatePlaybackToken (fun _ => .response 200 "b") (fun _ => none)
        1296000000000000 ⟨[⟨"s1", "R", "A", 1, 2⟩]⟩ "t" =
      (.error (.localValidation noValidSessionsMsg), []) :=
  generatePlaybackToken_all_expired (fun _ => .response 200 "b")
    (fun _ => none) 1296000000000000 [⟨"s1", "R", "A", 1, 2⟩] "t"
    (by decide) (by decide) (by decide)

/-- C5: `generatePlaybackToken` on an empty session list fails with the
local-validation error "no events in session, quitting" (never a
zero-results success) and issues no network request. -/
theorem generatePlaybackToken_empty_list (net : HttpRequest → NetResult)
    (decodeTok : String → Option PlaybackToken) (nowNs : Int)
    (token : String) :
    generatePlaybackToken net decodeTok nowNs ⟨[]⟩ token =
      (.error (.localValidation noEventsMsg), []) := rfl

/-- C7: for every request, a response with a non-200 status makes
`doRequest` fail with an upstream-rejection error carrying the original
status code and the raw body text unmodified, while a 200 response returns
the raw body to the caller. -/
theorem doRequest_status_classification (net : HttpRequest → NetResult)
    (req : HttpRequest) (status : Nat) (body : String)
    (h : net req = .response status body) :
    (status ≠ 200 →
      doRequest net req = .error (.upstreamRejection status body)) ∧
    (status = 200 → doRequest net req = .ok body) := by
  constructor
  · intro hne
    simp [doRequest, h, hne]
  · intro he
    simp [doRequest, h, he]

/-- Witness for C7 at a 404 response and at a 200 response. -/
theorem doRequest_status_classification_witness :
    doRequest (fun _ => .response 404 "oops") ⟨"GET", "u", "", []⟩ =
      .error (.upstreamRejection 404 "oops") ∧
    doRequest (fun _ => .response 200 "payload") ⟨"GET", "u", "", []⟩ =
      .ok "payload" :=
  ⟨(doRequest_status_classification (fun _ => .response 404 "oops")
      ⟨"GET", "u", "", []⟩ 404 "oops" rfl).1 (by decide),
   (doRequest_status_classification (fun _ => .response 200 "payload")
      ⟨"GET", "u", "", []⟩ 200 "payload" rfl).2 rfl⟩

/-- C6: for every playback reference whose URL path splits on `/` into
fewer than six segments, `getSessions` fails with the local
"malformed playback URL provided" validation error before any network call
is attempted; otherwise it issues exactly one sessions request built from
segment 3 as the account identifier and segment 1 as the resource
identifier, and on success returns segment 1 as the resource identifier. -/
theorem getSessions_path_contract (net : HttpRequest → NetResult)
    (decodeSessions : String → Option Sessions)
    (parsePath : String → Option String) (token ref path : String)
    (h : parsePath ref = some path) :
    ((splitSlash path).length < 6 →
      getSessions net decodeSessions parsePath token ref =
        (.error (.localValidation malformedMsg), [])) ∧
    (6 ≤ (splitSlash path).length →
      (getSessions net decodeSessions parsePath token ref).2 =
        [sessionsReq token ((splitSlash path).getD 3 "")
          ((splitSlash path).getD 1 "")] ∧
      ∀ res, (getSessions net decodeSessions parsePath token ref).1 =
          .ok res →
        res.2 = (splitSlash path).getD 1 "") := by
  constructor
  · intro hlt
    simp [getSessions, h, hlt]
  · intro hge
    have hnlt : ¬ (splitSlash path).length < 6 := not_lt.mpr hge
    simp only [getSessions, h]
    rw [if_neg hnlt]
    cases hdo : doRequest net (sessionsReq token ((splitSlash path).getD 3 "")
        ((splitSlash path).getD 1 "")) with
    | error e =>
      exact ⟨rfl, fun res hres => by simp at hres⟩
    | ok body =>
      simp only []
      cases hdec : decodeSessions body with
      | none =>
        exact ⟨rfl, fun res hres => by simp at hres⟩
      | some ss =>
        refine ⟨rfl, fun res hres => ?_⟩
        simp only [] at hres
        cases hres
        rfl

/-- Witness for C6: a three-segment path is rejected locally with no
request issued, and a six-segment path yields one request carrying
segment 3 as account and segment 1 as resource. -/
theorem getSessions_path_contract_witness :
    getSessions (fun _ => .response 200 "b") (fun _ => none)
        (fun _ => some "/a/b") "t" "refA" =
      (.error (.localValidation malformedMsg), []) ∧
    (getSessions (fun _ => .response 200 "b") (fun _ => none)
        (fun _ => some "/res/x/acct/y/z") "t" "refB").2 =
      [sessionsReq "t" ((splitSlash "/res/x/acct/y/z").getD 3 "")
        ((splitSlash "/res/x/acct/y/z").getD 1 "")] :=
  ⟨(getSessions_path_contract (fun _ => .response 200 "b") (fun _ => none)
      (fun _ => some "/a/b") "t" "refA" "/a/b" rfl).1 (by decide),
   ((getSessions_path_contract (fun _ => .response 200 "b") (fun _ => none)
      (fun _ => some "/res/x/acct/y/z") "t" "refB" "/res/x/acct/y/z"
      rfl).2 (by decide)).1⟩

/-- The session of the end-to-end example: resource `ResA`, account
`AcctB`, start time 1000, end time 2000. -/
def exSession : Session := ⟨"s1", "ResA", "AcctB", 1000, 2000⟩

/-- The clock of the end-to-end example, with the session's end time well
inside the 14-day window. -/
def exNowNs : Int := 2000 * nsPerSecond

/-- C8: every minting request body carries `start_time` and `end_time` as
decimal-string renderings of the session's integer times and
`manifest_format = "hls"`; and on the end-to-end example with one in-window
session `{startTime := 1000, endTime := 2000}`, exactly one token is minted
via a request with body `start_time="1000"`, `end_time="2000"`,
`manifest_format="hls"`, and exactly one URL is produced from it. -/
theorem mint_body_rendering :
    (∀ u token s, (mintReq u token s).payload =
      "\x7b\"start_time\":\"" ++ toString s.startTime
        ++ "\",\"end_time\":\"" ++ toString s.endTime
        ++ "\",\"manifest_format\":\"" ++ "hls" ++ "\"\x7d\n") ∧
    generatePlaybackToken (fun _ => .response 200 "mb")
        (fun _ => some ⟨"TOK"⟩) exNowNs ⟨[exSession]⟩ "AT" =
      (.ok [⟨"TOK"⟩], [mintReq (tokenEndpoint exSession) "AT" exSession]) ∧
    (mintReq (tokenEndpoint exSession) "AT" exSession).payload =
      "\x7b\"start_time\":\"1000\",\"end_time\":\"2000\",\"manifest_format\":\"hls\"\x7d\n" ∧
    generatePlaybackURL (fun _ => .response 200 "ub")
        (fun _ => some ⟨"https://resolved.example/1"⟩) [⟨"TOK"⟩] "ResA" =
      (.ok [⟨"https://resolved.example/1"⟩],
       [resolveReq "ResA" ⟨"TOK"⟩]) :=
  ⟨fun _ _ _ => rfl, by decide, by decide, by decide⟩

/-- C9: if any per-session minting call or per-token resolution call fails
partway through a batch (request or decode), the whole stage returns an
error: no token or URL list is returned next to the error, so items already
obtained earlier in the same batch are discarded. -/
theorem failFast_discards_partial_results :
    (∀ (net : HttpRequest → NetResult)
        (decodeTok : String → Option PlaybackToken) (nowNs : Int)
        (s0 : Session) (rest : List Session) (token : String) (s : Session),
      s ∈ s0 :: rest → sessionSkipped nowNs s = false →
      mintOf net decodeTok (tokenEndpoint s0) token s = none →
      ∃ e, (generatePlaybackToken net decodeTok nowNs ⟨s0 :: rest⟩
        token).1 = .error e) ∧
    (∀ (net : HttpRequest → NetResult)
        (decodeURL : String → Option PlaybackURL)
        (tokens : List PlaybackToken) (resourceID : String)
        (t : PlaybackToken),
      t ∈ tokens → resolveOf net decodeURL resourceID t = none →
      ∃ e, (generatePlaybackURL net decodeURL tokens resourceID).1 =
        .error e) := by
  constructor
  · intro net decodeTok nowNs s0 rest token s hmem hskip hbad
    cases hfind : (s0 :: rest).find? (fun s => s.endTime == 0) with
    | some live =>
      exact ⟨.businessRuleViolation (liveSessionMsg live.resourceID),
        by simp [generatePlaybackToken, hfind]⟩
    | none =>
      obtain ⟨e, he⟩ := mintLoop_err_of_bad net decodeTok (tokenEndpoint s0)
        token nowNs (s0 :: rest) s hmem hskip hbad
      refine ⟨e, ?_⟩
      simp only [generatePlaybackToken, hfind]
      rcases hr : mintLoop net decodeTok (tokenEndpoint s0) token nowNs
        (s0 :: rest) with ⟨r1, r2⟩
      rw [hr] at he
      simp only at he
      simp [he]
  · exact fun net decodeURL tokens resourceID =>
      generatePlaybackURL_err_of_bad net decodeURL resourceID tokens

/-- Witness for C9: a failing second minting call aborts the minting stage,
and a failing second resolution call aborts the resolution stage even
though the first token resolved successfully. -/
theorem failFast_discards_partial_results_witness :
    (∃ e, (generatePlaybackToken
      (fun r => if r = mintReq (tokenEndpoint ⟨"s1", "R", "A", 1, 5⟩) "t"
          ⟨"s2", "R", "A", 2, 6⟩ then .response 500 "boom"
        else .response 200 "ok")
      (fun _ => some ⟨"PT"⟩) 0
      ⟨[⟨"s1", "R", "A", 1, 5⟩, ⟨"s2", "R", "A", 2, 6⟩]⟩ "t").1 =
        .error e) ∧
    (∃ e, (generatePlaybackURL
      (fun r => if r = resolveReq "R" ⟨"bad"⟩ then .response 500 "boom"
        else .response 200 "ok")
      (fun _ => some ⟨"U"⟩) [⟨"good"⟩, ⟨"bad"⟩] "R").1 = .error e) :=
  ⟨failFast_discards_partial_results.1
    (fun r => if r = mintReq (tokenEndpoint ⟨"s1", "R", "A", 1, 5⟩) "t"
        ⟨"s2", "R", "A", 2, 6⟩ then .response 500 "boom"
      else .response 200 "ok")
    (fun _ => some ⟨"PT"⟩) 0 ⟨"s1", "R", "A", 1, 5⟩
    [⟨"s2", "R", "A", 2, 6⟩] "t" ⟨"s2", "R", "A", 2, 6⟩
    (by decide) (by decide) (by decide),
   failFast_discards_partial_results.2
    (fun r => if r = resolveReq "R" ⟨"bad"⟩ then .response 500 "boom"
      else .response 200 "ok")
    (fun _ => some ⟨"U"⟩) [⟨"good"⟩, ⟨"bad"⟩] "R" ⟨"bad"⟩
    (by decide) (by decide)⟩

/-- C10: `generatePlaybackURL` on an empty token list returns an empty URL
list with no error and issues no network request. -/
theorem generatePlaybackURL_empty_tokens (net : HttpRequest → NetResult)
    (decodeURL : String → Option PlaybackURL) (resourceID : String) :
    generatePlaybackURL net decodeURL [] resourceID = (.ok [], []) := rfl

end VodUrls
